import Mathlib

/-
Verification development for the ImagenesPDF repository
(src/imagenespdf/vendor_detector.py and src/imagenespdf/years.py).

The vendor-detection scoring and selection logic, the year parsing and
consolidation logic, and the caching wrappers are embedded as executable
Lean definitions.  Regular-expression matching is performed by the external
`re` library in the source, so it is abstracted here as a match oracle
`m : String → String → Bool`, where `m pat text = true` models
`re.findall(pat, text) ≠ []` for the compiled pattern.  Real-valued scores
(Python floats holding exact decimal constants 0.6, 0.3, 0.1, weights) are
modelled as rationals.
-/

namespace ImagenesPDF

/-- Model of `VendorType` enum from vendor_detector.py (lines 47-53). -/
inductive VendorType where
  | depo
  | yuto
  | hushan
  | generic
  | unknown
deriving DecidableEq, Repr

/-- Model of `ConfidenceLevel` enum from vendor_detector.py (lines 56-62). -/
inductive ConfidenceLevel where
  | very_high
  | high
  | medium
  | low
  | very_low
deriving DecidableEq, Repr

/-- Model of `PDFStatus` enum from ingest.py (lines 57-64). -/
inductive PDFStatus where
  | valid
  | corrupted
  | encrypted
  | unsupported
  | not_found
  | permission_denied
deriving DecidableEq, Repr

/-- The fields of `PDFMetadata` (ingest.py lines 67-103) that the
detection path reads: file path, content hash and validity status. -/
structure PDFMetadata where
  file_path : String
  file_hash : String
  status : PDFStatus
deriving DecidableEq, Repr

/-- Model of `DetectionSignature` (vendor_detector.py lines 65-85): the pattern
lists and the weight used by scoring.  Patterns are kept as their source
strings; matching is delegated to the oracle. -/
structure DetectionSignature where
  required_patterns : List String
  optional_patterns : List String
  exclusion_patterns : List String
  weight : ℚ
deriving DecidableEq, Repr

/-- Confidence banding from `DetectionResult.__post_init__`
(vendor_detector.py lines 107-118). -/
def confidenceBand (c : ℚ) : ConfidenceLevel :=
  if 9/10 ≤ c then ConfidenceLevel.very_high
  else if 7/10 ≤ c then ConfidenceLevel.high
  else if 1/2 ≤ c then ConfidenceLevel.medium
  else if 1/4 ≤ c then ConfidenceLevel.low
  else ConfidenceLevel.very_low

/-- Model of `DetectionResult` (vendor_detector.py lines 97-105): the vendor, the
numeric confidence and the derived confidence level. -/
structure DetectionResult where
  vendor : VendorType
  confidence : ℚ
  confidence_level : ConfidenceLevel
deriving DecidableEq, Repr

/-- Constructing a `DetectionResult` runs `__post_init__`, which derives
the confidence level from the numeric confidence. -/
def mkDetectionResult (v : VendorType) (c : ℚ) : DetectionResult :=
  ⟨v, c, confidenceBand c⟩

/-- Number of patterns in `pats` that have at least one match in `text`
under the match oracle `m`: models the `for regex in ...: if
regex.findall(full_text):` counting loops of `_analyze_vendor_signatures`
(vendor_detector.py lines 514-519, 529-534, 542-547). -/
def count_matched (m : String → String → Bool) (text : String)
    (pats : List String) : Nat :=
  (pats.filter (fun p => m p text)).length

/-- Optional-pattern bonus of `_analyze_vendor_signatures`
(vendor_detector.py lines 536-539): `0.3 × matched/total` when the
signature has optional patterns, `0` otherwise. -/
def optionalBonus (m : String → String → Bool) (text : String)
    (sig : DetectionSignature) : ℚ :=
  if sig.optional_patterns.length = 0 then 0
  else ((count_matched m text sig.optional_patterns : ℚ) /
        (sig.optional_patterns.length : ℚ)) * (3/10)

/-- Exclusion penalty factor of `_analyze_vendor_signatures`
(vendor_detector.py lines 549-551): `max(0.1, 1.0 - 0.3·k)` when `k > 0`
exclusion patterns matched, `1` otherwise. -/
def exclusionFactor (m : String → String → Bool) (text : String)
    (sig : DetectionSignature) : ℚ :=
  if 0 < count_matched m text sig.exclusion_patterns then
    max (1/10) (1 - (count_matched m text sig.exclusion_patterns : ℚ) * (3/10))
  else 1

/-- Score of one signature against the full text, following
`_analyze_vendor_signatures` (vendor_detector.py lines 505-554): skip with
score 0 unless every required pattern matched; otherwise base 0.6 plus the
optional bonus, times the exclusion factor, times the signature weight. -/
def signatureScore (m : String → String → Bool) (text : String)
    (sig : DetectionSignature) : ℚ :=
  if count_matched m text sig.required_patterns < sig.required_patterns.length
  then 0
  else ((6/10 : ℚ) + optionalBonus m text sig) * exclusionFactor m text sig
        * sig.weight

/-- Total score of a vendor's signature list (vendor_detector.py lines
556-559): positive signature scores accumulate into the vendor total. -/
def vendorTotalScore (m : String → String → Bool) (text : String)
    (sigs : List DetectionSignature) : ℚ :=
  sigs.foldl
    (fun acc sig =>
      if 0 < signatureScore m text sig then acc + signatureScore m text sig
      else acc)
    0

/-- Full text assembled from the page texts by `_perform_detection`
(vendor_detector.py line 451): newline-joined page texts. -/
def joinPages (pages : List String) : String :=
  String.intercalate (String.mk [Char.ofNat 10]) pages

/-- Per-vendor scores computed by `_perform_detection` (vendor_detector.py
lines 453-466): every vendor in the signature store except UNKNOWN gets the
total score of its signature list, in store order. -/
def computeVendorScores (m : String → String → Bool) (text : String)
    (entries : List (VendorType × List DetectionSignature)) :
    List (VendorType × ℚ) :=
  (entries.filter (fun e => e.1 != VendorType.unknown)).map
    (fun e => (e.1, vendorTotalScore m text e.2))

/-- Vendor selection of `_perform_detection` (vendor_detector.py lines
437-489): with no extracted text the result is UNKNOWN with confidence 0;
with no vendor scores or a maximum score of 0 the result is GENERIC with
confidence 0.3; otherwise the first vendor attaining the maximum score
wins, with confidence `min(score, 1.0)` (Python `max` with a key returns
the first maximal element in iteration order). -/
def performDetection (m : String → String → Bool) (pages : List String)
    (entries : List (VendorType × List DetectionSignature)) :
    VendorType × ℚ :=
  if pages.isEmpty then (VendorType.unknown, 0)
  else
    match computeVendorScores m (joinPages pages) entries with
    | [] => (VendorType.generic, 3/10)
    | s :: rest =>
      if rest.foldl (fun a p => max a p.2) s.2 = 0 then
        (VendorType.generic, 3/10)
      else
        ((rest.foldl (fun b p => if b.2 < p.2 then p else b) s).1,
         min (rest.foldl (fun b p => if b.2 < p.2 then p else b) s).2 1)

/-- Cache key of `detect_vendor` (vendor_detector.py line 405):
`f"{file_path}:{file_hash}"`. -/
def detectionCacheKey (meta : PDFMetadata) : String :=
  meta.file_path ++ ":" ++ meta.file_hash

/-- Lookup in the detection cache, modelling `cache_key in
self._detection_cache` followed by indexing. -/
def lookupDetectionCache (cache : List (String × DetectionResult))
    (k : String) : Option DetectionResult :=
  (cache.find? (fun e => e.1 == k)).map (fun e => e.2)

/-- Model of `detect_vendor` (vendor_detector.py lines 392-435) with the detector's
mutable cache made explicit.  Returns the result, the updated cache, and
whether text extraction was attempted.  Order of operations follows the
source: the cache is consulted first (unless `force_refresh`), then the
status is validated (an invalid PDF yields UNKNOWN/0, cached, with no
extraction), then `_perform_detection` runs and its result is cached. -/
def detectVendor (m : String → String → Bool) (pages : List String)
    (entries : List (VendorType × List DetectionSignature))
    (cache : List (String × DetectionResult)) (meta : PDFMetadata)
    (force_refresh : Bool) :
    DetectionResult × List (String × DetectionResult) × Bool :=
  match (if force_refresh then none
         else lookupDetectionCache cache (detectionCacheKey meta)) with
  | some r => (r, cache, false)
  | none =>
    if meta.status != PDFStatus.valid then
      (mkDetectionResult VendorType.unknown 0,
       (detectionCacheKey meta, mkDetectionResult VendorType.unknown 0)
         :: cache,
       false)
    else
      (mkDetectionResult (performDetection m pages entries).1
         (performDetection m pages entries).2,
       (detectionCacheKey meta,
        mkDetectionResult (performDetection m pages entries).1
          (performDetection m pages entries).2) :: cache,
       true)

/-- Model of `YearFormat` enum from years.py (lines 25-33). -/
inductive YearFormat where
  | full_year
  | short_year
  | range_full
  | range_short
  | range_mixed
  | list_mixed
  | invalid
deriving DecidableEq, Repr

/-- Model of `YearRange` dataclass from years.py (lines 36-47); years are integers. -/
structure YearRange where
  start_year : ℤ
  end_year : ℤ
  original_text : String
  format_detected : YearFormat
deriving DecidableEq, Repr

/-- Constructing a `YearRange` runs `__post_init__` (years.py lines 44-47),
which swaps the endpoints when given in reverse order. -/
def mkYearRange (s e : ℤ) (orig : String) (fmt : YearFormat) : YearRange :=
  if e < s then ⟨e, s, orig, fmt⟩ else ⟨s, e, orig, fmt⟩

/-- The apostrophe character, used by `parse_single_year`'s
`replace` of the year-abbreviation tick. -/
def apostropheChar : Char := Char.ofNat 39

/-- Model of Python `str.strip()` on the character list level: drop
whitespace from both ends. -/
def trimStr (s : String) : String :=
  String.mk
    (((s.toList.dropWhile Char.isWhitespace).reverse.dropWhile
        Char.isWhitespace).reverse)

/-- Model of Python `str.replace("'", "")`: remove every apostrophe. -/
def stripApostrophes (s : String) : String :=
  String.mk (s.toList.filter (fun c => c != apostropheChar))

/-- Value of a nonempty all-digit character list, for the model of
Python `int()`. -/
def digitsVal (cs : List Char) : Option ℕ :=
  if cs ≠ [] ∧ cs.all Char.isDigit then
    some (cs.foldl (fun a c => 10 * a + (c.toNat - 48)) 0)
  else none

/-- Model of Python `int(text)` on the token strings arising here
(optionally signed decimal numerals; `ValueError` becomes `none`). -/
def strToIntOpt (s : String) : Option ℤ :=
  match s.toList with
  | [] => none
  | c :: rest =>
    if c = '-' then (digitsVal rest).map (fun n => -(n : ℤ))
    else (digitsVal (c :: rest)).map (fun n => (n : ℤ))

/-- Model of Python `str.split(',')`: split a character list on commas,
keeping empty segments. -/
def splitCharList (sep : Char) (cs : List Char) : List (List Char) :=
  cs.foldr
    (fun c acc =>
      match acc with
      | [] => [[c]]
      | g :: gs => if c = sep then [] :: g :: gs else (c :: g) :: gs)
    [[]]

/-- Model of `text.split(',')` as used by `parse_year_list` (years.py line 247). -/
def splitCommas (s : String) : List String :=
  (splitCharList ',' s.toList).map String.mk

/-- Model of `MIN_AUTOMOTIVE_YEAR` (years.py line 80). -/
def MIN_AUTOMOTIVE_YEAR : ℤ := 1885

/-- Model of `MAX_FUTURE_YEAR` (years.py line 81): current year plus five; the
current year is a parameter `cy` of the embedding. -/
def maxFutureYear (cy : ℤ) : ℤ := cy + 5

/-- Model of `YearProcessor.convert_short_year` (years.py lines 114-131). -/
def convert_short_year (short_year : ℤ) : ℤ :=
  if short_year ≤ 29 then 2000 + short_year else 1900 + short_year

/-- Model of `YearProcessor.is_valid_automotive_year` (years.py lines 133-143). -/
def is_valid_automotive_year (cy year : ℤ) : Bool :=
  decide (MIN_AUTOMOTIVE_YEAR ≤ year ∧ year ≤ maxFutureYear cy)

/-- Search outcomes of the six generic recognition regexes of
`YearProcessor.PATTERNS` on a given text (years.py lines 84-107):
`true` means `search` found a match.  The regex engine is external, so
these are inputs of the embedding. -/
structure PatternHits where
  range_full : Bool
  range_mixed : Bool
  range_short : Bool
  list_comma : Bool
  full_single : Bool
  short_single : Bool
deriving DecidableEq, Repr

/-- Model of `YearProcessor.detect_year_format` (years.py lines 145-171): first
matching pattern wins, in the fixed order range_full, range_mixed,
range_short, list_comma, full_single, short_single, else INVALID. -/
def detect_year_format (h : PatternHits) : YearFormat :=
  if h.range_full then YearFormat.range_full
  else if h.range_mixed then YearFormat.range_mixed
  else if h.range_short then YearFormat.range_short
  else if h.list_comma then YearFormat.list_mixed
  else if h.full_single then YearFormat.full_year
  else if h.short_single then YearFormat.short_year
  else YearFormat.invalid

/-- Model of `YearProcessor.parse_single_year` (years.py lines 173-201): strip,
drop apostrophes, parse as an integer, convert two-digit years with the
century rule, then validate against the automotive range; failures give
`none`. -/
def parse_single_year (cy : ℤ) (text : String) : Option ℤ :=
  match strToIntOpt (stripApostrophes (trimStr text)) with
  | none => none
  | some y =>
    if is_valid_automotive_year cy
        (if 0 ≤ y ∧ y ≤ 99 then convert_short_year y else y) then
      some (if 0 ≤ y ∧ y ≤ 99 then convert_short_year y else y)
    else none

/-- Model of `YearProcessor.parse_year_range` (years.py lines 203-234): parse both
endpoints with `parse_single_year`; on success build a `YearRange` whose
format is derived from the textual lengths of the endpoints. -/
def parse_year_range (cy : ℤ) (start_text end_text original : String) :
    Option YearRange :=
  match parse_single_year cy start_text, parse_single_year cy end_text with
  | some s, some e =>
    let fmt :=
      if (stripApostrophes start_text).length = 2 ∧
         (stripApostrophes end_text).length = 2 then YearFormat.range_short
      else if (stripApostrophes start_text).length = 2 ∧
              end_text.length = 4 then YearFormat.range_mixed
      else YearFormat.range_full
    some (mkYearRange s e original fmt)
  | _, _ => none

/-- Model of `YearProcessor.parse_year_list` (years.py lines 236-263): split on
commas, strip each part, skip empty parts and unparseable years, and give
every surviving year a degenerate range. -/
def parse_year_list (cy : ℤ) (text : String) : List YearRange :=
  ((splitCommas text).map trimStr).filterMap
    (fun part =>
      if part = "" then none
      else
        (parse_single_year cy part).map
          (fun y =>
            mkYearRange y y part
              (if (stripApostrophes part).length = 4 then YearFormat.full_year
               else YearFormat.short_year)))

/-- The data `extract_years_from_text` reads from one text via the regex
engine: the raw text, the `search` hits for format detection, the capture
groups `(group(1), group(2), group(0))` of each range pattern's `search`,
the `group(0)` of the comma-list pattern's `search`, and the `findall`
token lists of the single-year patterns. -/
structure YearText where
  raw : String
  hits : PatternHits
  rfGroups : Option (String × String × String)
  rsGroups : Option (String × String × String)
  rmGroups : Option (String × String × String)
  listMatch : Option String
  fullSingles : List String
  shortSingles : List String

/-- One range branch of `extract_years_from_text` (years.py lines
306-325): if the pattern's `search` produced a match, parse its two
groups as a range; a failed parse contributes nothing. -/
def rangeBranch (cy : ℤ) (g : Option (String × String × String)) :
    List YearRange :=
  match g with
  | some (a, b, orig) =>
    match parse_year_range cy a b orig with
    | some r => [r]
    | none => []
  | none => []

/-- The single-year branch of `extract_years_from_text` (years.py lines
333-349): every `findall` token that parses becomes a degenerate range
carrying the detected format. -/
def singlesBranch (cy : ℤ) (toks : List String) (fmt : YearFormat) :
    List YearRange :=
  toks.filterMap
    (fun t => (parse_single_year cy t).map (fun y => mkYearRange y y t fmt))

/-- The format dispatch of `extract_years_from_text` (years.py lines
303-349), after the emptiness check. -/
def dispatchFormat (cy : ℤ) (yt : YearText) : List YearRange :=
  match detect_year_format yt.hits with
  | YearFormat.range_full => rangeBranch cy yt.rfGroups
  | YearFormat.range_short => rangeBranch cy yt.rsGroups
  | YearFormat.range_mixed => rangeBranch cy yt.rmGroups
  | YearFormat.list_mixed =>
    (match yt.listMatch with
     | some g0 => parse_year_list cy g0
     | none => [])
  | YearFormat.full_year => singlesBranch cy yt.fullSingles YearFormat.full_year
  | YearFormat.short_year =>
    singlesBranch cy yt.shortSingles YearFormat.short_year
  | YearFormat.invalid => []

/-- Model of `extract_years_from_text` without a vendor hint (years.py lines
265-353 with `vendor_specific=None`): empty or whitespace-only text gives
the empty list, otherwise the format dispatch runs.  This is also the
function the vendor-specific path calls recursively, since that recursive
call passes no vendor hint. -/
def extractNoVendor (cy : ℤ) (yt : YearText) : List YearRange :=
  if trimStr yt.raw = "" then [] else dispatchFormat cy yt

/-- A text together with the vendor-specific data `extract_years_from_text`
uses on the hinted path: whether a vendor hint was given and its wrapper
pattern exists, and the `findall` submatches of that wrapper pattern, each
with its own regex data. -/
structure YearTextV where
  base : YearText
  vendorHit : Bool
  vendorMatches : List YearText

/-- The computation of `extract_years_from_text` (years.py lines 265-353),
cache aside: empty or whitespace-only text is the empty list; with a
vendor hint whose wrapper pattern matched, the submatches are processed
recursively (without hint) and, if anything was found, returned directly;
otherwise the generic format dispatch runs on the full text. -/
def extract_years_core (cy : ℤ) (yt : YearTextV) : List YearRange :=
  if trimStr yt.base.raw = "" then []
  else if yt.vendorHit &&
      !((yt.vendorMatches.map (extractNoVendor cy)).flatten).isEmpty then
    (yt.vendorMatches.map (extractNoVendor cy)).flatten
  else dispatchFormat cy yt.base

/-- Sorted insertion by `start_year`, placing the new element before the
first strictly greater start: the stable sort used to model Python's
`sorted(ranges, key=lambda r: r.start_year)` in `consolidate_ranges`
(years.py line 389). -/
def insertByStart (x : YearRange) : List YearRange → List YearRange
  | [] => [x]
  | y :: ys =>
    if x.start_year ≤ y.start_year then x :: y :: ys
    else y :: insertByStart x ys

/-- Stable insertion sort by `start_year`, extensionally equal to Python's
stable `sorted` with the `start_year` key. -/
def sortByStart (rs : List YearRange) : List YearRange :=
  rs.foldr insertByStart []

/-- One step of the consolidation loop of `consolidate_ranges` (years.py
lines 392-406), acting on (finished ranges, last open range): merge the
current range into the open one when its start is at most the open end
plus one, else close the open range and open the current one. -/
def mergeStep (acc : List YearRange × YearRange) (current : YearRange) :
    List YearRange × YearRange :=
  if current.start_year ≤ acc.2.end_year + 1 then
    (acc.1,
     mkYearRange acc.2.start_year (max acc.2.end_year current.end_year)
       (acc.2.original_text ++ ", " ++ current.original_text)
       YearFormat.range_full)
  else (acc.1 ++ [acc.2], current)

/-- Model of `YearProcessor.consolidate_ranges` (years.py lines 375-408). -/
def consolidate_ranges (ranges : List YearRange) : List YearRange :=
  match sortByStart ranges with
  | [] => []
  | first :: rest =>
    (rest.foldl mergeStep ([], first)).1 ++
      [(rest.foldl mergeStep ([], first)).2]

/-- Heap of Python list objects for the memoization analysis of
`extract_years_from_text`: `cells` is the store of list objects (a
reference is an index into it) and `cache` is `self._cache`, mapping a
key to the reference of the stored list object. -/
structure YPHeap where
  cells : List (List YearRange)
  cache : List (String × Nat)
deriving DecidableEq, Repr

/-- Contents of the list object behind a reference. -/
def readCell (h : YPHeap) (r : Nat) : List YearRange :=
  h.cells.getD r []

/-- Allocate a fresh list object holding `v`; returns its reference. -/
def allocCell (h : YPHeap) (v : List YearRange) : Nat × YPHeap :=
  (h.cells.length, ⟨h.cells ++ [v], h.cache⟩)

/-- In-place update of the list object behind a reference: the caller
mutating a returned list (appending, removing, replacing elements) is any
function `f` applied to its contents. -/
def writeCell (h : YPHeap) (r : Nat) (v : List YearRange) : YPHeap :=
  ⟨h.cells.set r v, h.cache⟩

/-- Cache key of `extract_years_from_text` (years.py line 281):
`f"{text}:{vendor_specific}"`, where an absent hint prints as `None`. -/
def yearCacheKey (text : String) (vendor : Option String) : String :=
  text ++ ":" ++ (match vendor with | some v => v | none => "None")

/-- Lookup in the year cache. -/
def lookupYearCache (cache : List (String × Nat)) (k : String) :
    Option Nat :=
  (cache.find? (fun e => e.1 == k)).map (fun e => e.2)

/-- A heap is well formed when every cached reference points into the
store. -/
def heapWF (h : YPHeap) : Prop :=
  ∀ e ∈ h.cache, e.2 < h.cells.length

/-- The caching wrapper of `extract_years_from_text` (years.py lines
277-283 and 351-353) at the heap level, with the cache-independent
computation of the ranges abstracted as `compute`.  Empty or
whitespace-only text returns a fresh empty list before the cache is
consulted; a cache hit returns a fresh copy of the cached list object
(`self._cache[cache_key].copy()`); a miss stores the computed list object
in the cache and returns a fresh copy of it (`ranges.copy()`). -/
def extractYearsRef (compute : String → Option String → List YearRange)
    (h : YPHeap) (text : String) (vendor : Option String) : Nat × YPHeap :=
  if trimStr text = "" then allocCell h []
  else
    match lookupYearCache h.cache (yearCacheKey text vendor) with
    | some r => allocCell h (readCell h r)
    | none =>
      allocCell
        ⟨h.cells ++ [compute text vendor],
         (yearCacheKey text vendor, h.cells.length) :: h.cache⟩
        (readCell
          ⟨h.cells ++ [compute text vendor],
           (yearCacheKey text vendor, h.cells.length) :: h.cache⟩
          h.cells.length)

/- ------------------------------------------------------------------ -/
/- Theorems.                                                           -/
/- ------------------------------------------------------------------ -/

theorem count_matched_le (m : String → String → Bool) (text : String)
    (pats : List String) : count_matched m text pats ≤ pats.length :=
  List.length_filter_le _ _

theorem count_matched_of_all (m : String → String → Bool) (text : String)
    (pats : List String) (h : ∀ p ∈ pats, m p text = true) :
    count_matched m text pats = pats.length := by
  unfold count_matched
  rw [List.filter_eq_self.mpr h]

theorem count_matched_lt_of_missing (m : String → String → Bool)
    (text : String) (pats : List String)
    (h : ∃ p ∈ pats, m p text = false) :
    count_matched m text pats < pats.length := by
  unfold count_matched
  refine List.length_filter_lt_length_iff_exists.mpr ?_
  obtain ⟨p, hp, hm⟩ := h
  exact ⟨p, hp, by simp [hm]⟩

theorem optionalBonus_nonneg (m : String → String → Bool) (text : String)
    (sig : DetectionSignature) : 0 ≤ optionalBonus m text sig := by
  unfold optionalBonus
  split
  · exact le_refl 0
  · positivity

theorem exclusionFactor_pos (m : String → String → Bool) (text : String)
    (sig : DetectionSignature) : 0 < exclusionFactor m text sig := by
  unfold exclusionFactor
  split
  · exact lt_of_lt_of_le (by norm_num) (le_max_left _ _)
  · norm_num

/-- C2: a signature whose required patterns all match and whose exclusion
patterns all miss scores `(0.6 + 0.3 × matched_optional/total_optional) ×
weight`, with the optional term `0` when the signature has no optional
patterns; when in addition every optional pattern matches (and there is at
least one), the score is exactly `0.9 × weight`. -/
theorem c2_signature_score_formula (m : String → String → Bool)
    (text : String) (sig : DetectionSignature)
    (hreq : ∀ p ∈ sig.required_patterns, m p text = true)
    (hexcl : count_matched m text sig.exclusion_patterns = 0) :
    signatureScore m text sig =
      ((6/10 : ℚ) +
        (if sig.optional_patterns.length = 0 then 0
         else (3/10) * ((count_matched m text sig.optional_patterns : ℚ) /
              (sig.optional_patterns.length : ℚ)))) * sig.weight ∧
    (sig.optional_patterns ≠ [] →
      (∀ p ∈ sig.optional_patterns, m p text = true) →
      signatureScore m text sig = (9/10) * sig.weight) := by
  have hq : ¬ (count_matched m text sig.required_patterns <
      sig.required_patterns.length) := by
    rw [count_matched_of_all m text _ hreq]
    exact lt_irrefl _
  have hf : exclusionFactor m text sig = 1 := by
    unfold exclusionFactor
    rw [hexcl]
    simp
  constructor
  · rw [signatureScore, if_neg hq, hf, optionalBonus]
    split
    · ring
    · ring
  · intro hne hall
    rw [signatureScore, if_neg hq, hf, optionalBonus]
    have hlen : sig.optional_patterns.length ≠ 0 := by
      simpa [List.length_eq_zero] using hne
    have hlq : ((sig.optional_patterns.length : ℚ)) ≠ 0 := by
      exact_mod_cast hlen
    rw [if_neg hlen, count_matched_of_all m text _ hall, div_self hlq]
    norm_num

/-- C3: a signature with at least one unmatched required pattern scores 0
and contributes nothing to its vendor's total, whatever its optional and
exclusion patterns; a signature with no required patterns always passes
the required gate and is scored from the 0.6 base (plus optional bonus,
times exclusion factor, times weight). -/
theorem c3_required_gate (m : String → String → Bool) (text : String)
    (sig : DetectionSignature) :
    ((∃ p ∈ sig.required_patterns, m p text = false) →
      signatureScore m text sig = 0 ∧
      ∀ pre post : List DetectionSignature,
        vendorTotalScore m text (pre ++ sig :: post) =
          vendorTotalScore m text (pre ++ post)) ∧
    (sig.required_patterns = [] →
      signatureScore m text sig =
        ((6/10 : ℚ) + optionalBonus m text sig) * exclusionFactor m text sig
          * sig.weight) := by
  constructor
  · intro hmiss
    have hscore : signatureScore m text sig = 0 := by
      rw [signatureScore, if_pos (count_matched_lt_of_missing m text _ hmiss)]
    refine ⟨hscore, ?_⟩
    intro pre post
    unfold vendorTotalScore
    rw [List.foldl_append, List.foldl_append, List.foldl_cons, hscore]
    simp
  · intro hnil
    have hq : ¬ (count_matched m text sig.required_patterns <
        sig.required_patterns.length) := by
      rw [hnil]
      simp [count_matched]
    rw [signatureScore, if_neg hq]

/-- C4: a signature passing its required gate with `k ≥ 1` matching
exclusion patterns has its pre-weight score multiplied by
`max(0.1, 1 − 0.3·k)`; that factor is never below 0.1, so with a positive
weight the exclusions alone can never zero the signature's score. -/
theorem c4_exclusion_penalty (m : String → String → Bool) (text : String)
    (sig : DetectionSignature) (k : ℕ)
    (hreq : ∀ p ∈ sig.required_patterns, m p text = true)
    (hk : count_matched m text sig.exclusion_patterns = k)
    (hk1 : 1 ≤ k) :
    signatureScore m text sig =
      ((6/10 : ℚ) + optionalBonus m text sig) *
        max (1/10 : ℚ) (1 - (k : ℚ) * (3/10)) * sig.weight ∧
    (1/10 : ℚ) ≤ max (1/10 : ℚ) (1 - (k : ℚ) * (3/10)) ∧
    (0 < sig.weight → 0 < signatureScore m text sig) := by
  have hq : ¬ (count_matched m text sig.required_patterns <
      sig.required_patterns.length) := by
    rw [count_matched_of_all m text _ hreq]
    exact lt_irrefl _
  have hf : exclusionFactor m text sig =
      max (1/10 : ℚ) (1 - (k : ℚ) * (3/10)) := by
    unfold exclusionFactor
    rw [hk, if_pos (by omega : 0 < k)]
  have hmain : signatureScore m text sig =
      ((6/10 : ℚ) + optionalBonus m text sig) *
        max (1/10 : ℚ) (1 - (k : ℚ) * (3/10)) * sig.weight := by
    rw [signatureScore, if_neg hq, hf]
  refine ⟨hmain, le_max_left _ _, ?_⟩
  intro hw
  rw [hmain]
  have hb : (0 : ℚ) < (6/10 : ℚ) + optionalBonus m text sig :=
    lt_of_lt_of_le (by norm_num)
      (le_add_of_nonneg_right (optionalBonus_nonneg m text sig))
  have hfac : (0 : ℚ) < max (1/10 : ℚ) (1 - (k : ℚ) * (3/10)) :=
    lt_of_lt_of_le (by norm_num) (le_max_left _ _)
  exact mul_pos (mul_pos hb hfac) hw

/-- Witness for C2: a signature with one required pattern (matched), one
optional pattern (matched) and one exclusion pattern (missed) under an
oracle matching everything but "X" scores exactly 0.9 × 2. -/
theorem c2_witness :
    signatureScore (fun p _t => p != "X") "doc"
      ⟨["REQ"], ["OPT"], ["X"], 2⟩ = (9/10 : ℚ) * 2 :=
  (c2_signature_score_formula (fun p _t => p != "X") "doc"
      ⟨["REQ"], ["OPT"], ["X"], 2⟩ (by decide) (by decide)).2
    (by decide) (by decide)

/-- Witness for C3: a signature whose only required pattern misses scores
exactly 0. -/
theorem c3_witness :
    signatureScore (fun p _t => p != "X") "doc" ⟨["X"], [], [], 1⟩ = 0 :=
  ((c3_required_gate (fun p _t => p != "X") "doc" ⟨["X"], [], [], 1⟩).1
      ⟨"X", by decide, by decide⟩).1

/-- Witness for C4: a qualifying signature with two matching exclusion
patterns and weight 1 still has a strictly positive score. -/
theorem c4_witness :
    (0 : ℚ) < signatureScore (fun p _t => p != "X") "doc"
      ⟨["REQ"], [], ["E1", "E2"], 1⟩ :=
  (c4_exclusion_penalty (fun p _t => p != "X") "doc"
      ⟨["REQ"], [], ["E1", "E2"], 1⟩ 2 (by decide) (by decide)
      (by decide)).2.2 (by norm_num)

theorem foldlMax_ge_init :
    ∀ (l : List (VendorType × ℚ)) (a : ℚ),
      a ≤ l.foldl (fun a p => max a p.2) a := by
  intro l
  induction l with
  | nil => intro a; exact le_refl a
  | cons q l ih =>
    intro a
    exact le_trans (le_max_left a q.2) (ih (max a q.2))

theorem foldlMax_ge_mem :
    ∀ (l : List (VendorType × ℚ)) (a : ℚ) (p : VendorType × ℚ), p ∈ l →
      p.2 ≤ l.foldl (fun a p => max a p.2) a := by
  intro l
  induction l with
  | nil => intro a p hp; cases hp
  | cons q l ih =>
    intro a p hp
    rcases List.mem_cons.mp hp with h | h
    · subst h
      exact le_trans (le_max_right a p.2) (foldlMax_ge_init l (max a p.2))
    · exact ih (max a q.2) p h

theorem foldlMax_le :
    ∀ (l : List (VendorType × ℚ)) (a c : ℚ), a ≤ c →
      (∀ p ∈ l, p.2 ≤ c) → l.foldl (fun a p => max a p.2) a ≤ c := by
  intro l
  induction l with
  | nil => intro a c ha _; exact ha
  | cons q l ih =>
    intro a c ha hl
    exact ih (max a q.2) c
      (max_le ha (hl q (List.mem_cons_self q l)))
      (fun p hp => hl p (List.mem_cons_of_mem q hp))

theorem foldlBest_cases :
    ∀ (l : List (VendorType × ℚ)) (b : VendorType × ℚ),
      l.foldl (fun b p => if b.2 < p.2 then p else b) b = b ∨
      l.foldl (fun b p => if b.2 < p.2 then p else b) b ∈ l := by
  intro l
  induction l with
  | nil => intro b; exact Or.inl rfl
  | cons q l ih =>
    intro b
    rcases ih (if b.2 < q.2 then q else b) with h | h
    · rw [List.foldl_cons, h]
      by_cases hc : b.2 < q.2
      · rw [if_pos hc]; exact Or.inr (List.mem_cons_self q l)
      · rw [if_neg hc]; exact Or.inl rfl
    · exact Or.inr (List.mem_cons_of_mem q h)

theorem foldlBest_ge_init :
    ∀ (l : List (VendorType × ℚ)) (b : VendorType × ℚ),
      b.2 ≤ (l.foldl (fun b p => if b.2 < p.2 then p else b) b).2 := by
  intro l
  induction l with
  | nil => intro b; exact le_refl _
  | cons q l ih =>
    intro b
    refine le_trans ?_ (ih (if b.2 < q.2 then q else b))
    by_cases hc : b.2 < q.2
    · rw [if_pos hc]; exact le_of_lt hc
    · rw [if_neg hc]

theorem foldlBest_ge_mem :
    ∀ (l : List (VendorType × ℚ)) (b : VendorType × ℚ)
      (p : VendorType × ℚ), p ∈ l →
      p.2 ≤ (l.foldl (fun b p => if b.2 < p.2 then p else b) b).2 := by
  intro l
  induction l with
  | nil => intro b p hp; cases hp
  | cons q l ih =>
    intro b p hp
    rcases List.mem_cons.mp hp with h | h
    · subst h
      refine le_trans ?_ (foldlBest_ge_init l (if b.2 < p.2 then p else b))
      by_cases hc : b.2 < p.2
      · rw [if_pos hc]
      · rw [if_neg hc]; exact le_of_not_lt hc
    · exact ih (if b.2 < q.2 then q else b) p h

/-- C1: over a document with extracted text, if every vendor's total
signature score is 0 the detection falls back to GENERIC with confidence
exactly 0.3; otherwise the winner is a vendor holding the maximum total
score, with confidence `min(score, 1.0)` (clamped, not renormalized). -/
theorem c1_vendor_selection (m : String → String → Bool)
    (pages : List String)
    (entries : List (VendorType × List DetectionSignature))
    (hpages : pages ≠ []) :
    ((∀ p ∈ computeVendorScores m (joinPages pages) entries, p.2 = 0) →
      performDetection m pages entries = (VendorType.generic, 3/10)) ∧
    (∀ q ∈ computeVendorScores m (joinPages pages) entries, q.2 ≠ 0 →
      (∀ p ∈ computeVendorScores m (joinPages pages) entries, p.2 ≤ q.2) →
      ∃ b ∈ computeVendorScores m (joinPages pages) entries,
        b.2 = q.2 ∧ performDetection m pages entries = (b.1, min q.2 1)) := by
  have hne : pages.isEmpty = false := by
    simpa [List.isEmpty_iff] using hpages
  constructor
  · intro hall
    rcases hsc : computeVendorScores m (joinPages pages) entries with
      _ | ⟨s, rest⟩
    · simp [performDetection, hne, hsc]
    · have hs0 : s.2 = 0 :=
        hall s (by rw [hsc]; exact List.mem_cons_self s rest)
      have hmax : rest.foldl (fun a p => max a p.2) s.2 = 0 := by
        apply le_antisymm
        · exact foldlMax_le rest s.2 0 (le_of_eq hs0)
            (fun p hp => le_of_eq
              (hall p (by rw [hsc]; exact List.mem_cons_of_mem s hp)))
        · calc (0 : ℚ) = s.2 := hs0.symm
            _ ≤ _ := foldlMax_ge_init rest s.2
      simp [performDetection, hne, hsc, hmax]
  · intro q hq hq0 hqmax
    rcases hsc : computeVendorScores m (joinPages pages) entries with
      _ | ⟨s, rest⟩
    · rw [hsc] at hq; cases hq
    · rw [hsc] at hq hqmax
      have hsle : s.2 ≤ q.2 := hqmax s (List.mem_cons_self s rest)
      have hmaxle : rest.foldl (fun a p => max a p.2) s.2 ≤ q.2 :=
        foldlMax_le rest s.2 q.2 hsle
          (fun p hp => hqmax p (List.mem_cons_of_mem s hp))
      have hqle : q.2 ≤ rest.foldl (fun a p => max a p.2) s.2 := by
        rcases List.mem_cons.mp hq with h | h
        · rw [h]; exact foldlMax_ge_init rest s.2
        · exact foldlMax_ge_mem rest s.2 q h
      have hmaxne : ¬ (rest.foldl (fun a p => max a p.2) s.2 = 0) := by
        rw [le_antisymm hmaxle hqle]; exact hq0
      have hbcases :
          rest.foldl (fun b p => if b.2 < p.2 then p else b) s = s ∨
          rest.foldl (fun b p => if b.2 < p.2 then p else b) s ∈ rest :=
        foldlBest_cases rest s
      have hbin :
          rest.foldl (fun b p => if b.2 < p.2 then p else b) s ∈ s :: rest := by
        rcases hbcases with h | h
        · rw [h]; exact List.mem_cons_self s rest
        · exact List.mem_cons_of_mem s h
      have hble :
          (rest.foldl (fun b p => if b.2 < p.2 then p else b) s).2 ≤ q.2 :=
        hqmax _ hbin
      have hbge :
          q.2 ≤ (rest.foldl (fun b p => if b.2 < p.2 then p else b) s).2 := by
        rcases List.mem_cons.mp hq with h | h
        · rw [h]; exact foldlBest_ge_init rest s
        · exact foldlBest_ge_mem rest s q h
      have hbeq :
          (rest.foldl (fun b p => if b.2 < p.2 then p else b) s).2 = q.2 :=
        le_antisymm hble hbge
      refine ⟨rest.foldl (fun b p => if b.2 < p.2 then p else b) s,
        hbin, hbeq, ?_⟩
      simp only [performDetection, hne, Bool.false_eq_true, if_false, hsc]
      rw [if_neg hmaxne, hbeq]

/-- Witness for C1: one DEPO entry whose single signature fully matches
under an all-true oracle; DEPO wins with its total score clamped at
`min(score, 1)`. -/
theorem c1_witness :
    ∃ b ∈ computeVendorScores (fun _p _t => true)
        (joinPages ["DEPO page"]) [(VendorType.depo, [⟨["DEPO"], [], [], 1⟩])],
      b.2 = vendorTotalScore (fun _p _t => true) (joinPages ["DEPO page"])
          [⟨["DEPO"], [], [], 1⟩] ∧
      performDetection (fun _p _t => true) ["DEPO page"]
          [(VendorType.depo, [⟨["DEPO"], [], [], 1⟩])] =
        (b.1, min (vendorTotalScore (fun _p _t => true)
          (joinPages ["DEPO page"]) [⟨["DEPO"], [], [], 1⟩]) 1) :=
  (c1_vendor_selection (fun _p _t => true) ["DEPO page"]
      [(VendorType.depo, [⟨["DEPO"], [], [], 1⟩])] (by decide)).2
    (VendorType.depo,
      vendorTotalScore (fun _p _t => true) (joinPages ["DEPO page"])
        [⟨["DEPO"], [], [], 1⟩])
    (by simp [computeVendorScores])
    (by
      simp only [vendorTotalScore, List.foldl_cons, List.foldl_nil]
      norm_num [signatureScore, count_matched, optionalBonus, exclusionFactor])
    (by
      intro p hp
      simp [computeVendorScores] at hp
      subst hp
      exact le_refl _)

theorem vendorTotalScore_foldl_nonneg (m : String → String → Bool)
    (text : String) :
    ∀ (sigs : List DetectionSignature) (a : ℚ), 0 ≤ a →
      0 ≤ sigs.foldl
        (fun acc sig =>
          if 0 < signatureScore m text sig then acc + signatureScore m text sig
          else acc) a := by
  intro sigs
  induction sigs with
  | nil => intro a ha; exact ha
  | cons sig sigs ih =>
    intro a ha
    rw [List.foldl_cons]
    apply ih
    split
    · rename_i hpos
      exact add_nonneg ha (le_of_lt hpos)
    · exact ha

theorem vendorTotalScore_nonneg (m : String → String → Bool) (text : String)
    (sigs : List DetectionSignature) : 0 ≤ vendorTotalScore m text sigs :=
  vendorTotalScore_foldl_nonneg m text sigs 0 (le_refl 0)

theorem computeVendorScores_nonneg (m : String → String → Bool)
    (text : String) (entries : List (VendorType × List DetectionSignature)) :
    ∀ p ∈ computeVendorScores m text entries, 0 ≤ p.2 := by
  intro p hp
  unfold computeVendorScores at hp
  obtain ⟨e, _he, rfl⟩ := List.mem_map.mp hp
  exact vendorTotalScore_nonneg m text e.2

theorem performDetection_confidence_bounds (m : String → String → Bool)
    (pages : List String)
    (entries : List (VendorType × List DetectionSignature)) :
    0 ≤ (performDetection m pages entries).2 ∧
    (performDetection m pages entries).2 ≤ 1 := by
  unfold performDetection
  cases hb : pages.isEmpty
  · simp only [Bool.false_eq_true, if_false]
    rcases hsc : computeVendorScores m (joinPages pages) entries with
      _ | ⟨s, rest⟩
    · simp only [hsc]
      norm_num
    · simp only [hsc]
      by_cases hz : rest.foldl (fun a p => max a p.2) s.2 = 0
      · rw [if_pos hz]
        norm_num
      · rw [if_neg hz]
        have hs : 0 ≤ s.2 := by
          apply computeVendorScores_nonneg m (joinPages pages) entries
          rw [hsc]
          exact List.mem_cons_self s rest
        constructor
        · exact le_min
            (le_trans hs (foldlBest_ge_init rest s)) (by norm_num)
        · exact min_le_right _ _
  · simp only [if_true]
    norm_num

/-- C5 counterexample: the source consults the detection cache before it
validates the metadata status (vendor_detector.py lines 404-422), so a
call with a non-VALID `PDFMetadata` whose `(path, hash)` key is already
cached returns the cached result — here a GENERIC one, not UNKNOWN. -/
theorem c5_counterexample :
    (detectVendor (fun _p _t => false) [] []
        [("f.pdf:h", mkDetectionResult VendorType.generic (3/10))]
        ⟨"f.pdf", "h", PDFStatus.corrupted⟩ false).1.vendor =
      VendorType.generic ∧
    VendorType.generic ≠ VendorType.unknown := by
  constructor
  · decide
  · decide

/-- C5 (amended): when the detection cache has no entry for the
metadata's `(path, hash)` key, or `force_refresh` is set, a non-VALID
status short-circuits `detect_vendor` to UNKNOWN with confidence 0, with
no text extraction attempted; and (never-raise, modelled by totality) any
run reaching past the cache yields a confidence within `[0, 1]`. -/
theorem c5_invalid_short_circuit (m : String → String → Bool)
    (pages : List String)
    (entries : List (VendorType × List DetectionSignature))
    (cache : List (String × DetectionResult)) (meta : PDFMetadata)
    (fr : Bool)
    (hmiss : fr = true ∨
      lookupDetectionCache cache (detectionCacheKey meta) = none) :
    (meta.status ≠ PDFStatus.valid →
      detectVendor m pages entries cache meta fr =
        (mkDetectionResult VendorType.unknown 0,
         (detectionCacheKey meta, mkDetectionResult VendorType.unknown 0)
           :: cache,
         false)) ∧
    (0 ≤ (detectVendor m pages entries cache meta fr).1.confidence ∧
     (detectVendor m pages entries cache meta fr).1.confidence ≤ 1) := by
  have hnone : (if fr then none
      else lookupDetectionCache cache (detectionCacheKey meta)) =
      (none : Option DetectionResult) := by
    rcases hmiss with h | h
    · rw [h]; rfl
    · cases fr
      · simpa using h
      · rfl
  constructor
  · intro hst
    unfold detectVendor
    rw [hnone]
    have hbne : (meta.status != PDFStatus.valid) = true := by
      simpa [bne_iff_ne] using hst
    simp only [hbne, if_true]
  · unfold detectVendor
    rw [hnone]
    by_cases hst : meta.status != PDFStatus.valid
    · simp only [hst, if_true]
      norm_num [mkDetectionResult]
    · simp only [hst, Bool.false_eq_true, if_false]
      exact performDetection_confidence_bounds m pages entries

/-- Witness for C5's amended theorem: an empty cache and a CORRUPTED
status give the UNKNOWN/0 result with no extraction. -/
theorem c5_witness :
    detectVendor (fun _p _t => false) [] [] [] ⟨"a", "b", PDFStatus.corrupted⟩
        false =
      (mkDetectionResult VendorType.unknown 0,
       (detectionCacheKey ⟨"a", "b", PDFStatus.corrupted⟩,
        mkDetectionResult VendorType.unknown 0) :: [],
       false) :=
  (c5_invalid_short_circuit (fun _p _t => false) [] [] []
      ⟨"a", "b", PDFStatus.corrupted⟩ false (Or.inr rfl)).1 (by decide)

theorem mkYearRange_start_end (s e : ℤ) (orig : String) (fmt : YearFormat) :
    (mkYearRange s e orig fmt).start_year = min s e ∧
    (mkYearRange s e orig fmt).end_year = max s e := by
  unfold mkYearRange
  by_cases h : e < s
  · rw [if_pos h]
    exact ⟨(min_eq_right (le_of_lt h)).symm, (max_eq_left (le_of_lt h)).symm⟩
  · rw [if_neg h]
    push_neg at h
    exact ⟨(min_eq_left h).symm, (max_eq_right h).symm⟩

theorem mkYearRange_of_le (s e : ℤ) (orig : String) (fmt : YearFormat)
    (h : s ≤ e) : mkYearRange s e orig fmt = ⟨s, e, orig, fmt⟩ := by
  unfold mkYearRange
  rw [if_neg (not_lt.mpr h)]

/-- C6: the century rule converts a two-digit year `y` to `2000+y` when
`y ≤ 29` and to `1900+y` otherwise, and this single rule runs behind every
two-digit token: `parse_single_year` applies it to any token whose integer
value lies in 0..99, and range endpoints (via `parse_year_range`) and list
elements (via `parse_year_list`) are themselves parsed with
`parse_single_year`. -/
theorem c6_century_rule (cy y : ℤ) (t a b orig : String) :
    (0 ≤ y → y ≤ 99 →
      convert_short_year y = if y ≤ 29 then 2000 + y else 1900 + y) ∧
    (strToIntOpt (stripApostrophes (trimStr t)) = some y → 0 ≤ y → y ≤ 99 →
      parse_single_year cy t =
        if is_valid_automotive_year cy (convert_short_year y) then
          some (convert_short_year y)
        else none) ∧
    (∀ r, parse_year_range cy a b orig = some r →
      ∃ sa sb, parse_single_year cy a = some sa ∧
        parse_single_year cy b = some sb ∧
        r.start_year = min sa sb ∧ r.end_year = max sa sb) ∧
    (∀ r, r ∈ parse_year_list cy t →
      ∃ part yv, part ∈ (splitCommas t).map trimStr ∧
        parse_single_year cy part = some yv ∧
        r.start_year = yv ∧ r.end_year = yv) := by
  refine ⟨fun _ _ => rfl, ?_, ?_, ?_⟩
  · intro hst h0 h99
    unfold parse_single_year
    rw [hst]
    dsimp only
    rw [if_pos (⟨h0, h99⟩ : 0 ≤ y ∧ y ≤ 99)]
  · intro r hr
    unfold parse_year_range at hr
    rcases hsa : parse_single_year cy a with _ | sa <;> rw [hsa] at hr
    · cases hr
    · rcases hsb : parse_single_year cy b with _ | sb <;> rw [hsb] at hr
      · cases hr
      · refine ⟨sa, sb, rfl, rfl, ?_⟩
        rw [Option.some.injEq] at hr
        rw [← hr]
        exact mkYearRange_start_end sa sb orig _
  · intro r hr
    unfold parse_year_list at hr
    obtain ⟨part, hpart, hf⟩ := List.mem_filterMap.mp hr
    by_cases hemp : part = ""
    · rw [if_pos hemp] at hf; cases hf
    · rw [if_neg hemp] at hf
      rcases hy : parse_single_year cy part with _ | yv <;> rw [hy] at hf
      · cases hf
      · rw [Option.map_some', Option.some.injEq] at hf
        refine ⟨part, yv, hpart, hy, ?_⟩
        rw [← hf]
        have h := mkYearRange_start_end yv yv part
          (if (stripApostrophes part).length = 4 then YearFormat.full_year
           else YearFormat.short_year)
        rw [h.1, h.2]
        exact ⟨min_self yv, max_self yv⟩

/-- Witness for C6: the token "15" parses to 2015 in the year 2024. -/
theorem c6_witness :
    parse_single_year 2024 "15" =
      (if is_valid_automotive_year 2024 (convert_short_year 15) then
         some (convert_short_year 15)
       else none) ∧
    parse_single_year 2024 "15" = some 2015 := by
  have h := (c6_century_rule 2024 15 "15" "" "" "").2.1 (by decide) (by decide)
    (by decide)
  exact ⟨h, h.trans (by decide)⟩

/-- C7: `detect_year_format` classifies by the first matching pattern in
the fixed order RANGE_FULL, RANGE_MIXED, RANGE_SHORT, LIST_MIXED,
FULL_YEAR, SHORT_YEAR, and yields INVALID exactly when no pattern
matches; in particular a full-range hit wins over any other hits. -/
theorem c7_format_precedence (h : PatternHits) :
    (detect_year_format h = YearFormat.range_full ↔ h.range_full = true) ∧
    (detect_year_format h = YearFormat.range_mixed ↔
      h.range_full = false ∧ h.range_mixed = true) ∧
    (detect_year_format h = YearFormat.range_short ↔
      h.range_full = false ∧ h.range_mixed = false ∧
      h.range_short = true) ∧
    (detect_year_format h = YearFormat.list_mixed ↔
      h.range_full = false ∧ h.range_mixed = false ∧
      h.range_short = false ∧ h.list_comma = true) ∧
    (detect_year_format h = YearFormat.full_year ↔
      h.range_full = false ∧ h.range_mixed = false ∧
      h.range_short = false ∧ h.list_comma = false ∧
      h.full_single = true) ∧
    (detect_year_format h = YearFormat.short_year ↔
      h.range_full = false ∧ h.range_mixed = false ∧
      h.range_short = false ∧ h.list_comma = false ∧
      h.full_single = false ∧ h.short_single = true) ∧
    (detect_year_format h = YearFormat.invalid ↔
      h.range_full = false ∧ h.range_mixed = false ∧
      h.range_short = false ∧ h.list_comma = false ∧
      h.full_single = false ∧ h.short_single = false) := by
  obtain ⟨f, mx, sh, lc, fu, ss⟩ := h
  cases f <;> cases mx <;> cases sh <;> cases lc <;> cases fu <;> cases ss <;>
    simp [detect_year_format]

/-- Witness for C7: with every pattern matching, the classification is
RANGE_FULL. -/
theorem c7_witness :
    detect_year_format ⟨true, true, true, true, true, true⟩ =
      YearFormat.range_full :=
  (c7_format_precedence ⟨true, true, true, true, true, true⟩).1.mpr rfl

theorem mem_insertByStart (x y : YearRange) :
    ∀ l : List YearRange, x ∈ insertByStart y l → x = y ∨ x ∈ l := by
  intro l
  induction l with
  | nil =>
    intro hx
    rcases List.mem_singleton.mp hx with h
    exact Or.inl h
  | cons z l ih =>
    intro hx
    unfold insertByStart at hx
    split at hx
    · rcases List.mem_cons.mp hx with h | h
      · exact Or.inl h
      · exact Or.inr h
    · rcases List.mem_cons.mp hx with h | h
      · exact Or.inr (by rw [h]; exact List.mem_cons_self z l)
      · rcases ih h with h2 | h2
        · exact Or.inl h2
        · exact Or.inr (List.mem_cons_of_mem z h2)

theorem mem_sortByStart (x : YearRange) :
    ∀ rs : List YearRange, x ∈ sortByStart rs → x ∈ rs := by
  intro rs
  induction rs with
  | nil => intro hx; cases hx
  | cons r rs ih =>
    intro hx
    rcases mem_insertByStart x r (sortByStart rs) hx with h | h
    · rw [h]; exact List.mem_cons_self r rs
    · exact List.mem_cons_of_mem r (ih h)

theorem chain'_append_singleton_of_start_eq
    (done : List YearRange) (x y : YearRange)
    (hstart : y.start_year = x.start_year)
    (h : List.Chain' (fun u v => u.end_year + 1 < v.start_year)
      (done ++ [x])) :
    List.Chain' (fun u v => u.end_year + 1 < v.start_year) (done ++ [y]) := by
  rw [List.chain'_append] at h ⊢
  refine ⟨h.1, List.chain'_singleton y, ?_⟩
  intro u hu v hv
  rw [List.head?_cons, Option.mem_some_iff] at hv
  rw [← hv, hstart]
  exact h.2.2 u hu x (by rw [List.head?_cons]; rfl)

theorem consolidate_fold_chain :
    ∀ (rest done : List YearRange) (last : YearRange),
      List.Chain' (fun u v => u.end_year + 1 < v.start_year)
        (done ++ [last]) →
      last.start_year ≤ last.end_year →
      (∀ r ∈ rest, r.start_year ≤ r.end_year) →
      List.Chain' (fun u v => u.end_year + 1 < v.start_year)
        ((rest.foldl mergeStep (done, last)).1 ++
          [(rest.foldl mergeStep (done, last)).2]) := by
  intro rest
  induction rest with
  | nil => intro done last hch _ _; exact hch
  | cons current rest ih =>
    intro done last hch hlast hrest
    rw [List.foldl_cons]
    by_cases hm : current.start_year ≤ last.end_year + 1
    · have hstep : mergeStep (done, last) current =
          (done,
           mkYearRange last.start_year
             (max last.end_year current.end_year)
             (last.original_text ++ ", " ++ current.original_text)
             YearFormat.range_full) := by
        unfold mergeStep
        rw [if_pos hm]
      rw [hstep]
      have hle : last.start_year ≤ max last.end_year current.end_year :=
        le_trans hlast (le_max_left _ _)
      have hmk := mkYearRange_of_le last.start_year
        (max last.end_year current.end_year)
        (last.original_text ++ ", " ++ current.original_text)
        YearFormat.range_full hle
      apply ih
      · rw [hmk]
        exact chain'_append_singleton_of_start_eq done last _ rfl hch
      · rw [hmk]
        exact hle
      · exact fun r hr => hrest r (List.mem_cons_of_mem current hr)
    · have hstep : mergeStep (done, last) current =
          (done ++ [last], current) := by
        unfold mergeStep
        rw [if_neg hm]
      rw [hstep]
      apply ih
      · rw [List.chain'_append]
        refine ⟨hch, List.chain'_singleton current, ?_⟩
        intro u hu v hv
        rw [List.head?_cons, Option.mem_some_iff] at hv
        rw [List.getLast?_concat, Option.mem_some_iff] at hu
        rw [← hv, ← hu]
        exact lt_of_not_ge (fun hge => hm (by omega))
      · exact hrest current (List.mem_cons_self current rest)
      · exact fun r hr => hrest r (List.mem_cons_of_mem current hr)

/-- C8: `consolidate_ranges` sorts by start year and merges a range into
the previous one exactly when its start is at most the previous end plus
one — for two ranges in start order the result is a single merged range
under that condition and both ranges unchanged otherwise, the merged
range carrying the comma-joined original texts and format RANGE_FULL —
and consecutive output ranges of any consolidation are always separated
by a gap of at least two years (a 1-year gap never merges). -/
theorem c8_consolidation (a b : YearRange) (ranges : List YearRange)
    (hab : a.start_year ≤ b.start_year)
    (ha : a.start_year ≤ a.end_year) :
    consolidate_ranges [a, b] =
      (if b.start_year ≤ a.end_year + 1 then
        [⟨a.start_year, max a.end_year b.end_year,
          a.original_text ++ ", " ++ b.original_text,
          YearFormat.range_full⟩]
      else [a, b]) ∧
    ((∀ r ∈ ranges, r.start_year ≤ r.end_year) →
      List.Chain' (fun u v => u.end_year + 1 < v.start_year)
        (consolidate_ranges ranges)) := by
  constructor
  · have hsort : sortByStart [a, b] = [a, b] := by
      simp only [sortByStart, List.foldr_cons, List.foldr_nil, insertByStart]
      rw [if_pos hab]
    unfold consolidate_ranges
    rw [hsort]
    dsimp only
    rw [List.foldl_cons, List.foldl_nil]
    unfold mergeStep
    by_cases hm : b.start_year ≤ a.end_year + 1
    · rw [if_pos hm, if_pos hm]
      have hle : a.start_year ≤ max a.end_year b.end_year :=
        le_trans ha (le_max_left _ _)
      rw [mkYearRange_of_le _ _ _ _ hle]
      rfl
    · rw [if_neg hm, if_neg hm]
      rfl
  · intro hnorm
    unfold consolidate_ranges
    rcases hs : sortByStart ranges with _ | ⟨first, rest⟩
    · exact List.chain'_nil
    · have hmem : ∀ r ∈ first :: rest, r ∈ ranges := by
        intro r hr
        exact mem_sortByStart r ranges (by rw [hs]; exact hr)
      exact consolidate_fold_chain rest [] first
        (List.chain'_singleton first)
        (hnorm first (hmem first (List.mem_cons_self first rest)))
        (fun r hr =>
          hnorm r (hmem r (List.mem_cons_of_mem first hr)))

/-- Witness for C8: the adjacent ranges 2010-2012 and 2013-2015 merge
into a single 2010-2015 range with comma-joined text and RANGE_FULL
format. -/
theorem c8_witness :
    consolidate_ranges
      [⟨2010, 2012, "2010-2012", YearFormat.range_full⟩,
       ⟨2013, 2015, "2013-2015", YearFormat.range_full⟩] =
      [⟨2010, 2015, "2010-2012, 2013-2015", YearFormat.range_full⟩] := by
  have h := (c8_consolidation ⟨2010, 2012, "2010-2012", YearFormat.range_full⟩
      ⟨2013, 2015, "2013-2015", YearFormat.range_full⟩ []
      (by decide) (by decide)).1
  exact h.trans (by decide)

theorem parse_single_year_valid (cy : ℤ) (t : String) (yv : ℤ)
    (h : parse_single_year cy t = some yv) :
    MIN_AUTOMOTIVE_YEAR ≤ yv ∧ yv ≤ maxFutureYear cy := by
  unfold parse_single_year at h
  rcases hs : strToIntOpt (stripApostrophes (trimStr t)) with _ | y0 <;>
    rw [hs] at h
  · cases h
  · dsimp only at h
    split at h
    all_goals
      split at h
      · rename_i hv2
        rw [Option.some.injEq] at h
        unfold is_valid_automotive_year at hv2
        rw [← h]
        exact of_decide_eq_true hv2
      · cases h

theorem parse_year_range_valid (cy : ℤ) (a b orig : String) (r : YearRange)
    (h : parse_year_range cy a b orig = some r) :
    (MIN_AUTOMOTIVE_YEAR ≤ r.start_year ∧ r.start_year ≤ maxFutureYear cy) ∧
    (MIN_AUTOMOTIVE_YEAR ≤ r.end_year ∧ r.end_year ≤ maxFutureYear cy) := by
  unfold parse_year_range at h
  rcases hsa : parse_single_year cy a with _ | sa <;> rw [hsa] at h
  · cases h
  · rcases hsb : parse_single_year cy b with _ | sb <;> rw [hsb] at h
    · cases h
    · rw [Option.some.injEq] at h
      obtain ⟨hsa1, hsa2⟩ := parse_single_year_valid cy a sa hsa
      obtain ⟨hsb1, hsb2⟩ := parse_single_year_valid cy b sb hsb
      have hse := mkYearRange_start_end sa sb orig
        (if (stripApostrophes a).length = 2 ∧
            (stripApostrophes b).length = 2 then YearFormat.range_short
         else if (stripApostrophes a).length = 2 ∧ b.length = 4 then
           YearFormat.range_mixed
         else YearFormat.range_full)
      rw [← h, hse.1, hse.2]
      exact ⟨⟨le_min hsa1 hsb1, le_trans (min_le_left sa sb) hsa2⟩,
        ⟨le_trans hsa1 (le_max_left sa sb), max_le hsa2 hsb2⟩⟩

theorem parse_year_list_valid (cy : ℤ) (t : String) (r : YearRange)
    (h : r ∈ parse_year_list cy t) :
    (MIN_AUTOMOTIVE_YEAR ≤ r.start_year ∧ r.start_year ≤ maxFutureYear cy) ∧
    (MIN_AUTOMOTIVE_YEAR ≤ r.end_year ∧ r.end_year ≤ maxFutureYear cy) := by
  unfold parse_year_list at h
  obtain ⟨part, _hpart, hf⟩ := List.mem_filterMap.mp h
  by_cases hemp : part = ""
  · rw [if_pos hemp] at hf; cases hf
  · rw [if_neg hemp] at hf
    rcases hy : parse_single_year cy part with _ | yv <;> rw [hy] at hf
    · cases hf
    · rw [Option.map_some', Option.some.injEq] at hf
      obtain ⟨h1, h2⟩ := parse_single_year_valid cy part yv hy
      have hse := mkYearRange_start_end yv yv part
        (if (stripApostrophes part).length = 4 then YearFormat.full_year
         else YearFormat.short_year)
      rw [← hf, hse.1, hse.2, min_self, max_self]
      exact ⟨⟨h1, h2⟩, ⟨h1, h2⟩⟩

theorem singlesBranch_valid (cy : ℤ) (toks : List String) (fmt : YearFormat)
    (r : YearRange) (h : r ∈ singlesBranch cy toks fmt) :
    (MIN_AUTOMOTIVE_YEAR ≤ r.start_year ∧ r.start_year ≤ maxFutureYear cy) ∧
    (MIN_AUTOMOTIVE_YEAR ≤ r.end_year ∧ r.end_year ≤ maxFutureYear cy) := by
  unfold singlesBranch at h
  obtain ⟨t, _ht, hf⟩ := List.mem_filterMap.mp h
  rcases hy : parse_single_year cy t with _ | yv <;> rw [hy] at hf
  · cases hf
  · rw [Option.map_some', Option.some.injEq] at hf
    obtain ⟨h1, h2⟩ := parse_single_year_valid cy t yv hy
    have hse := mkYearRange_start_end yv yv t fmt
    rw [← hf, hse.1, hse.2, min_self, max_self]
    exact ⟨⟨h1, h2⟩, ⟨h1, h2⟩⟩

theorem rangeBranch_valid (cy : ℤ) (g : Option (String × String × String))
    (r : YearRange) (h : r ∈ rangeBranch cy g) :
    (MIN_AUTOMOTIVE_YEAR ≤ r.start_year ∧ r.start_year ≤ maxFutureYear cy) ∧
    (MIN_AUTOMOTIVE_YEAR ≤ r.end_year ∧ r.end_year ≤ maxFutureYear cy) := by
  unfold rangeBranch at h
  rcases g with _ | ⟨a, b, orig⟩
  · cases h
  · dsimp only at h
    rcases hp : parse_year_range cy a b orig with _ | r0 <;> rw [hp] at h
    · cases h
    · rw [List.mem_singleton.mp h]
      exact parse_year_range_valid cy a b orig r0 hp

theorem dispatchFormat_valid (cy : ℤ) (yt : YearText) (r : YearRange)
    (h : r ∈ dispatchFormat cy yt) :
    (MIN_AUTOMOTIVE_YEAR ≤ r.start_year ∧ r.start_year ≤ maxFutureYear cy) ∧
    (MIN_AUTOMOTIVE_YEAR ≤ r.end_year ∧ r.end_year ≤ maxFutureYear cy) := by
  unfold dispatchFormat at h
  split at h
  · exact rangeBranch_valid cy yt.rfGroups r h
  · exact rangeBranch_valid cy yt.rsGroups r h
  · exact rangeBranch_valid cy yt.rmGroups r h
  · rcases hl : yt.listMatch with _ | g0 <;> rw [hl] at h
    · cases h
    · exact parse_year_list_valid cy g0 r h
  · exact singlesBranch_valid cy yt.fullSingles YearFormat.full_year r h
  · exact singlesBranch_valid cy yt.shortSingles YearFormat.short_year r h
  · cases h

theorem extractNoVendor_valid (cy : ℤ) (yt : YearText) (r : YearRange)
    (h : r ∈ extractNoVendor cy yt) :
    (MIN_AUTOMOTIVE_YEAR ≤ r.start_year ∧ r.start_year ≤ maxFutureYear cy) ∧
    (MIN_AUTOMOTIVE_YEAR ≤ r.end_year ∧ r.end_year ≤ maxFutureYear cy) := by
  unfold extractNoVendor at h
  split at h
  · cases h
  · exact dispatchFormat_valid cy yt r h

/-- C9: year parsing is total by construction (every branch yields a
value, never an exception); empty or whitespace-only input makes the
extraction return the empty list; and any parsed year outside the
inclusive range [1885, current year + 5] is rejected rather than clamped:
a token whose integer value converts to an out-of-range year makes
`parse_single_year` return `none`, a `none` endpoint makes
`parse_year_range` return `none`, a `none`-parsing token is dropped by
the single-year scan, `parse_single_year` only ever returns in-range
years, and consequently every range the extraction emits has both
endpoints in range — out-of-range tokens contribute no YearRange. -/
theorem c9_out_of_range_rejection (cy : ℤ) (yt : YearTextV)
    (t b orig : String) :
    (trimStr yt.base.raw = "" → extract_years_core cy yt = []) ∧
    (∀ y, strToIntOpt (stripApostrophes (trimStr t)) = some y →
      ¬ (MIN_AUTOMOTIVE_YEAR ≤
            (if 0 ≤ y ∧ y ≤ 99 then convert_short_year y else y) ∧
          (if 0 ≤ y ∧ y ≤ 99 then convert_short_year y else y) ≤
            maxFutureYear cy) →
      parse_single_year cy t = none) ∧
    (parse_single_year cy t = none →
      parse_year_range cy t b orig = none ∧
      parse_year_range cy b t orig = none) ∧
    (∀ toks fmt, parse_single_year cy t = none →
      singlesBranch cy (t :: toks) fmt = singlesBranch cy toks fmt) ∧
    (∀ yv, parse_single_year cy t = some yv →
      MIN_AUTOMOTIVE_YEAR ≤ yv ∧ yv ≤ maxFutureYear cy) ∧
    (∀ r ∈ extract_years_core cy yt,
      (MIN_AUTOMOTIVE_YEAR ≤ r.start_year ∧
        r.start_year ≤ maxFutureYear cy) ∧
      (MIN_AUTOMOTIVE_YEAR ≤ r.end_year ∧
        r.end_year ≤ maxFutureYear cy)) := by
  refine ⟨?_, ?_, ?_, ?_,
    fun yv h => parse_single_year_valid cy t yv h, ?_⟩
  · intro hempty
    unfold extract_years_core
    rw [if_pos hempty]
  · intro y hst hnot
    unfold parse_single_year
    rw [hst]
    dsimp only
    have hv : is_valid_automotive_year cy
        (if 0 ≤ y ∧ y ≤ 99 then convert_short_year y else y) = false := by
      unfold is_valid_automotive_year
      exact decide_eq_false hnot
    rw [hv]
    simp
  · intro hnone
    constructor
    · unfold parse_year_range
      rw [hnone]
    · unfold parse_year_range
      rw [hnone]
      rcases parse_single_year cy b with _ | sb <;> rfl
  · intro toks fmt hnone
    unfold singlesBranch
    rw [List.filterMap_cons, hnone]
    rfl
  · intro r hr
    unfold extract_years_core at hr
    split at hr
    · cases hr
    · split at hr
      · obtain ⟨l, hl, hrl⟩ := List.mem_flatten.mp hr
        obtain ⟨yt0, hyt0, rfl⟩ := List.mem_map.mp hl
        exact extractNoVendor_valid cy yt0 r hrl
      · exact dispatchFormat_valid cy yt.base r hr

/-- Witness for C9: a whitespace-only text extracts nothing; for current
year 2024 the out-of-range tokens "1884" and "2099" are rejected by
`parse_single_year` (returning `none`, not a clamped year), the rejected
token "2099" contributes no YearRange to the single-year scan, and the
in-range token "2010" parses to a year within [1885, 2029]. -/
theorem c9_witness :
    extract_years_core 2024
      ⟨⟨" ", ⟨false, false, false, false, false, false⟩, none, none, none,
        none, [], []⟩, false, []⟩ = [] ∧
    parse_single_year 2024 "1884" = none ∧
    parse_single_year 2024 "2099" = none ∧
    singlesBranch 2024 ["2099"] YearFormat.full_year = [] ∧
    (MIN_AUTOMOTIVE_YEAR ≤ (2010 : ℤ) ∧ (2010 : ℤ) ≤ maxFutureYear 2024) := by
  refine ⟨?_, ?_, ?_, ?_, ?_⟩
  · exact (c9_out_of_range_rejection 2024
      ⟨⟨" ", ⟨false, false, false, false, false, false⟩, none, none, none,
        none, [], []⟩, false, []⟩ "2010" "" "").1 (by decide)
  · exact (c9_out_of_range_rejection 2024
      ⟨⟨" ", ⟨false, false, false, false, false, false⟩, none, none, none,
        none, [], []⟩, false, []⟩ "1884" "" "").2.1 1884 (by decide)
      (by decide)
  · exact (c9_out_of_range_rejection 2024
      ⟨⟨" ", ⟨false, false, false, false, false, false⟩, none, none, none,
        none, [], []⟩, false, []⟩ "2099" "" "").2.1 2099 (by decide)
      (by decide)
  · exact ((c9_out_of_range_rejection 2024
      ⟨⟨" ", ⟨false, false, false, false, false, false⟩, none, none, none,
        none, [], []⟩, false, []⟩ "2099" "" "").2.2.2.1 []
      YearFormat.full_year (by decide)).trans (by decide)
  · exact (c9_out_of_range_rejection 2024
      ⟨⟨" ", ⟨false, false, false, false, false, false⟩, none, none, none,
        none, [], []⟩, false, []⟩ "2010" "" "").2.2.2.2.1 2010 (by decide)

theorem getD_append_self (v : List YearRange) :
    ∀ l : List (List YearRange), (l ++ [v]).getD l.length [] = v := by
  intro l
  induction l with
  | nil => rfl
  | cons a l ih =>
    rw [List.cons_append, List.length_cons, List.getD_cons_succ]
    exact ih

theorem getD_append_lt (v : List YearRange) :
    ∀ (l : List (List YearRange)) (i : Nat), i < l.length →
      (l ++ [v]).getD i [] = l.getD i [] := by
  intro l
  induction l with
  | nil => intro i hi; exact absurd hi (Nat.not_lt_zero i)
  | cons a l ih =>
    intro i hi
    cases i with
    | zero => rfl
    | succ n =>
      rw [List.cons_append, List.getD_cons_succ, List.getD_cons_succ]
      exact ih n (Nat.lt_of_succ_lt_succ hi)

theorem getD_set_ne (v : List YearRange) :
    ∀ (l : List (List YearRange)) (j i : Nat), i ≠ j →
      (l.set j v).getD i [] = l.getD i [] := by
  intro l
  induction l with
  | nil => intro j i _; rfl
  | cons a l ih =>
    intro j i hij
    cases j with
    | zero =>
      cases i with
      | zero => exact absurd rfl hij
      | succ n =>
        rw [List.set_cons_zero, List.getD_cons_succ, List.getD_cons_succ]
    | succ m =>
      cases i with
      | zero => rw [List.set_cons_succ]; rfl
      | succ n =>
        rw [List.set_cons_succ, List.getD_cons_succ, List.getD_cons_succ]
        exact ih m n (fun hh => hij (by rw [hh]))

theorem lookupYearCache_lt (c : List (String × Nat)) (k : String) (ρ : Nat)
    (L : Nat) (hwf : ∀ e ∈ c, e.2 < L) (h : lookupYearCache c k = some ρ) :
    ρ < L := by
  unfold lookupYearCache at h
  rcases hf : c.find? (fun e => e.1 == k) with _ | e <;> rw [hf] at h
  · cases h
  · rw [Option.map_some', Option.some.injEq] at h
    rw [← h]
    exact hwf e (List.mem_of_find?_eq_some hf)

theorem readCell_mk (cells : List (List YearRange))
    (c : List (String × Nat)) (i : Nat) :
    readCell ⟨cells, c⟩ i = cells.getD i [] := rfl

theorem readCell_append_self (cells : List (List YearRange))
    (c : List (String × Nat)) (v : List YearRange) :
    readCell ⟨cells ++ [v], c⟩ cells.length = v :=
  getD_append_self v cells

theorem lookupYearCache_head (k : String) (n : Nat)
    (c : List (String × Nat)) :
    lookupYearCache ((k, n) :: c) k = some n := by
  unfold lookupYearCache
  rw [List.find?_cons_of_pos _ (by simp)]
  rfl

theorem readCell_append_lt (cells : List (List YearRange))
    (c : List (String × Nat)) (v : List YearRange) (i : Nat)
    (hi : i < cells.length) :
    readCell ⟨cells ++ [v], c⟩ i = cells.getD i [] :=
  getD_append_lt v cells i hi

theorem extractYearsRef_empty (compute : String → Option String → List YearRange)
    (h : YPHeap) (text : String) (vendor : Option String)
    (he : trimStr text = "") :
    extractYearsRef compute h text vendor =
      (h.cells.length, ⟨h.cells ++ [[]], h.cache⟩) := by
  simp only [extractYearsRef, if_pos he, allocCell]

theorem extractYearsRef_hit (compute : String → Option String → List YearRange)
    (h : YPHeap) (text : String) (vendor : Option String) (ρ : Nat)
    (he : ¬ trimStr text = "")
    (hlk : lookupYearCache h.cache (yearCacheKey text vendor) = some ρ) :
    extractYearsRef compute h text vendor =
      (h.cells.length, ⟨h.cells ++ [readCell h ρ], h.cache⟩) := by
  simp only [extractYearsRef, if_neg he, hlk, allocCell]

theorem extractYearsRef_miss (compute : String → Option String → List YearRange)
    (h : YPHeap) (text : String) (vendor : Option String)
    (he : ¬ trimStr text = "")
    (hlk : lookupYearCache h.cache (yearCacheKey text vendor) = none) :
    extractYearsRef compute h text vendor =
      ((h.cells ++ [compute text vendor]).length,
       ⟨(h.cells ++ [compute text vendor]) ++ [compute text vendor],
        (yearCacheKey text vendor, h.cells.length) :: h.cache⟩) := by
  simp only [extractYearsRef, if_neg he, hlk, allocCell, readCell_append_self]

theorem writeCell_mk (cells : List (List YearRange))
    (c : List (String × Nat)) (i : Nat) (v : List YearRange) :
    writeCell ⟨cells, c⟩ i v = ⟨cells.set i v, c⟩ := rfl

theorem extractYearsRef_hit_mk
    (compute : String → Option String → List YearRange)
    (cells : List (List YearRange)) (cache : List (String × Nat))
    (text : String) (vendor : Option String) (ρ : Nat)
    (he : ¬ trimStr text = "")
    (hlk : lookupYearCache cache (yearCacheKey text vendor) = some ρ) :
    extractYearsRef compute ⟨cells, cache⟩ text vendor =
      (cells.length, ⟨cells ++ [cells.getD ρ []], cache⟩) := by
  simp only [extractYearsRef, if_neg he, hlk, allocCell, readCell]

/-- C10: two successive `extract_years_from_text` calls with the same
`(text, vendor hint)` arguments return equal lists, the second served from
the memoization cache; the references handed back are fresh copies
distinct from the cached cell, so list-level mutation of either returned
list leaves every later call's result unchanged.  Modelled at the level of
the caching wrapper (years.py lines 277-283, 351-353) over an explicit
heap of list objects, with the cache-independent computation abstracted as
`compute`; `f` and `g` are arbitrary mutations the caller applies to the
lists returned by the first and second call. -/
theorem c10_memoized_extraction
    (compute : String → Option String → List YearRange)
    (h0 : YPHeap) (text : String) (vendor : Option String)
    (f g : List YearRange → List YearRange)
    (hwf : heapWF h0)
    (r1 : Nat) (h1 : YPHeap)
    (e1 : extractYearsRef compute h0 text vendor = (r1, h1))
    (r2 : Nat) (h2 : YPHeap)
    (e2 : extractYearsRef compute
      (writeCell h1 r1 (f (readCell h1 r1))) text vendor = (r2, h2))
    (r3 : Nat) (h3 : YPHeap)
    (e3 : extractYearsRef compute
      (writeCell h2 r2 (g (readCell h2 r2))) text vendor = (r3, h3)) :
    readCell h2 r2 = readCell h1 r1 ∧
    readCell h3 r3 = readCell h1 r1 ∧
    (trimStr text ≠ "" →
      ∃ ρ, lookupYearCache h1.cache (yearCacheKey text vendor) = some ρ ∧
        ρ ≠ r1 ∧ ρ ≠ r2 ∧ readCell h1 ρ = readCell h1 r1) := by
  by_cases hemp : trimStr text = ""
  · rw [extractYearsRef_empty compute h0 text vendor hemp] at e1
    injection e1 with e1a e1b
    subst e1a
    subst e1b
    rw [extractYearsRef_empty compute _ text vendor hemp] at e2
    injection e2 with e2a e2b
    subst e2a
    subst e2b
    rw [extractYearsRef_empty compute _ text vendor hemp] at e3
    injection e3 with e3a e3b
    subst e3a
    subst e3b
    rw [readCell_append_self, readCell_append_self, readCell_append_self]
    exact ⟨rfl, rfl, fun hne => absurd hemp hne⟩
  · rcases hlk : lookupYearCache h0.cache (yearCacheKey text vendor) with
      _ | ρ
    · -- first call misses the cache and stores the computed list
      rw [extractYearsRef_miss compute h0 text vendor hemp hlk] at e1
      injection e1 with e1a e1b
      subst e1a
      subst e1b
      rw [readCell_append_self]
      rw [readCell_append_self, writeCell_mk] at e2
      rw [extractYearsRef_hit compute _ text vendor h0.cells.length hemp
        (lookupYearCache_head _ _ _)] at e2
      dsimp only [readCell] at e2
      have hlen1 : h0.cells.length ≠
          (h0.cells ++ [compute text vendor]).length := by
        simp
      have hlt1 : h0.cells.length <
          (h0.cells ++ [compute text vendor]).length := by
        simp
      rw [getD_set_ne _ _ _ _ hlen1, getD_append_lt _ _ _ hlt1,
        getD_append_self] at e2
      injection e2 with e2a e2b
      subst e2a
      subst e2b
      rw [readCell_append_self]
      have hWlen : (((h0.cells ++ [compute text vendor]) ++
          [compute text vendor]).set
          (h0.cells ++ [compute text vendor]).length
          (f (compute text vendor))).length =
          (h0.cells ++ [compute text vendor]).length + 1 := by
        rw [List.length_set]
        simp
      refine ⟨rfl, ?_, ?_⟩
      · rw [readCell_append_self, writeCell_mk] at e3
        rw [extractYearsRef_hit compute _ text vendor h0.cells.length hemp
          (lookupYearCache_head _ _ _)] at e3
        dsimp only [readCell] at e3
        have hne2 : h0.cells.length ≠
            (((h0.cells ++ [compute text vendor]) ++
              [compute text vendor]).set
              (h0.cells ++ [compute text vendor]).length
              (f (compute text vendor))).length := by
          rw [hWlen]
          simp
          omega
        have hlt2 : h0.cells.length <
            (((h0.cells ++ [compute text vendor]) ++
              [compute text vendor]).set
              (h0.cells ++ [compute text vendor]).length
              (f (compute text vendor))).length := by
          rw [hWlen]
          simp
          omega
        rw [getD_set_ne _ _ _ _ hne2, getD_append_lt _ _ _ hlt2,
          getD_set_ne _ _ _ _ hlen1, getD_append_lt _ _ _ hlt1,
          getD_append_self] at e3
        injection e3 with e3a e3b
        subst e3a
        subst e3b
        rw [readCell_append_self]
      · intro _
        refine ⟨h0.cells.length, lookupYearCache_head _ _ _,
          by simp, ?_, ?_⟩
        · rw [hWlen]
          simp
          omega
        · dsimp only [readCell]
          rw [getD_append_lt _ _ _ hlt1, getD_append_self]
    · -- first call hits the cache
      have hρL : ρ < h0.cells.length :=
        lookupYearCache_lt h0.cache (yearCacheKey text vendor) ρ
          h0.cells.length (fun e he => hwf e he) hlk
      rw [extractYearsRef_hit compute h0 text vendor ρ hemp hlk] at e1
      injection e1 with e1a e1b
      subst e1a
      subst e1b
      rw [readCell_append_self]
      rw [readCell_append_self, writeCell_mk] at e2
      rw [extractYearsRef_hit_mk compute _ _ text vendor ρ hemp hlk] at e2
      have hne1 : ρ ≠ h0.cells.length := by omega
      have hsetlen : ((h0.cells ++ [readCell h0 ρ]).set h0.cells.length
          (f (readCell h0 ρ))).length = h0.cells.length + 1 := by
        rw [List.length_set]
        simp
      have hread : h0.cells.getD ρ [] = readCell h0 ρ := rfl
      rw [getD_set_ne _ _ _ _ hne1, getD_append_lt _ _ _ hρL,
        hread] at e2
      injection e2 with e2a e2b
      subst e2a
      subst e2b
      rw [readCell_append_self]
      refine ⟨rfl, ?_, ?_⟩
      · rw [readCell_append_self, writeCell_mk] at e3
        rw [extractYearsRef_hit_mk compute _ _ text vendor ρ hemp hlk] at e3
        have hne3 : ρ ≠ ((h0.cells ++ [readCell h0 ρ]).set
            h0.cells.length (f (readCell h0 ρ))).length := by
          rw [hsetlen]
          omega
        have hlt2 : ρ < ((h0.cells ++ [readCell h0 ρ]).set
            h0.cells.length (f (readCell h0 ρ))).length := by
          rw [hsetlen]
          omega
        rw [getD_set_ne _ _ _ _ hne3, getD_append_lt _ _ _ hlt2,
          getD_set_ne _ _ _ _ hne1, getD_append_lt _ _ _ hρL,
          hread] at e3
        injection e3 with e3a e3b
        subst e3a
        subst e3b
        rw [readCell_append_self]
      · intro _
        refine ⟨ρ, hlk, hne1, ?_, ?_⟩
        · rw [hsetlen]
          omega
        · dsimp only [readCell]
          rw [getD_append_lt _ _ _ hρL]

/-- Witness for C10: a first call on an empty heap computes and caches the
list for "2010", the caller empties its returned copy, and the second
call still returns the original one-range list, equal to the first call's
result. -/
theorem c10_witness :
    readCell
        ⟨[[⟨2010, 2010, "2010", YearFormat.full_year⟩], [],
          [⟨2010, 2010, "2010", YearFormat.full_year⟩]],
         [("2010:None", 0)]⟩ 2 =
      readCell
        ⟨[[⟨2010, 2010, "2010", YearFormat.full_year⟩],
          [⟨2010, 2010, "2010", YearFormat.full_year⟩]],
         [("2010:None", 0)]⟩ 1 :=
  (c10_memoized_extraction
    (fun _t _v => [⟨2010, 2010, "2010", YearFormat.full_year⟩])
    ⟨[], []⟩ "2010" none (fun _l => []) (fun l => l ++ l)
    (fun e he => absurd he (List.not_mem_nil e))
    1 ⟨[[⟨2010, 2010, "2010", YearFormat.full_year⟩],
        [⟨2010, 2010, "2010", YearFormat.full_year⟩]],
       [("2010:None", 0)]⟩ (by decide)
    2 ⟨[[⟨2010, 2010, "2010", YearFormat.full_year⟩], [],
        [⟨2010, 2010, "2010", YearFormat.full_year⟩]],
       [("2010:None", 0)]⟩ (by decide)
    3 ⟨[[⟨2010, 2010, "2010", YearFormat.full_year⟩], [],
        [⟨2010, 2010, "2010", YearFormat.full_year⟩,
         ⟨2010, 2010, "2010", YearFormat.full_year⟩],
        [⟨2010, 2010, "2010", YearFormat.full_year⟩]],
       [("2010:None", 0)]⟩ (by decide)).1

end ImagenesPDF
